import Mathlib

/-!
Shallow embedding of the Build Hotspot Analyzer (BHA) pure-Python core:
`src/python/bha/types.py` and `src/python/bha/__init__.py`.

Modelling conventions:
* Python `int` nanosecond counts are `Int`; the source never clamps them, so
  they may be negative.
* Python `float` millisecond quantities are modelled as exact rationals `ℚ`;
  none of the properties studied here hinges on binary floating-point
  rounding (all thresholds are far from representation boundaries).
* Python `dict` accumulators (insertion-ordered by CPython semantics) are
  association lists that bump an existing key in place and append new keys
  at the end.
* `sorted(xs, key=f, reverse=True)` in CPython is a stable sort, descending
  on the key, with equal keys keeping their original relative order; it is
  modelled by the stable insertion sort `sortDescBy` below.
-/

namespace BHA

/-- `Duration` from `types.py`: wraps the integer nanosecond count
`self._ns`.  The source performs plain integer arithmetic and never clamps,
so the count may be negative. -/
structure Duration where
  ns : Int
deriving DecidableEq, Repr

/-- `Duration.from_microseconds` from `types.py`: `int(us * 1000)`.  For the
integer-valued `dur` fields consulted by the parser this is exactly
`us * 1000`. -/
def Duration.from_microseconds (us : Int) : Duration := ⟨us * 1000⟩

/-- `Duration.milliseconds` from `types.py`: `self._ns / 1_000_000.0`. -/
def Duration.milliseconds (d : Duration) : ℚ := (d.ns : ℚ) / 1000000

/-- `Duration.__add__`: componentwise addition of nanosecond counts. -/
instance : Add Duration := ⟨fun a b => ⟨a.ns + b.ns⟩⟩

/-- `Duration.__sub__`: plain difference of nanosecond counts (no clamp in
the source). -/
instance : Sub Duration := ⟨fun a b => ⟨a.ns - b.ns⟩⟩

/-- `CompilerType` enum from `types.py`. -/
inductive CompilerType
  | UNKNOWN
  | CLANG
  | GCC
  | MSVC
  | INTEL
  | NVCC
deriving DecidableEq, Repr

/-- `SuggestionType` enum from `types.py`. -/
inductive SuggestionType
  | PCH
  | FORWARD_DECLARATION
  | INCLUDE_OPTIMIZATION
  | TEMPLATE_OPTIMIZATION
  | HEADER_SPLIT
  | PIMPL
  | UNITY_BUILD
  | MODULE_MIGRATION
  | CUSTOM
deriving DecidableEq, Repr

/-- `Priority` enum from `types.py` (values 1..4). -/
inductive Priority
  | LOW
  | MEDIUM
  | HIGH
  | CRITICAL
deriving DecidableEq, Repr

/-- `Confidence` enum from `types.py` (values 1..3). -/
inductive Confidence
  | LOW
  | MEDIUM
  | HIGH
deriving DecidableEq, Repr

/-- `IncludeInfo` dataclass from `types.py`, with its field defaults. -/
structure IncludeInfo where
  header_path : String
  include_time : Duration := ⟨0⟩
  line_number : Int := 0
  is_system : Bool := false
  is_direct : Bool := true
  included_by : Option String := none
deriving DecidableEq, Repr

/-- `TemplateInstantiation` dataclass from `types.py`, with its field
defaults. -/
structure TemplateInstantiation where
  template_name : String
  instantiation_time : Duration := ⟨0⟩
  specialization : String := ""
  location_file : String := ""
  location_line : Int := 0
  instantiation_count : Int := 1
deriving DecidableEq, Repr

/-- `SymbolInfo` dataclass from `types.py` (never populated by the parser). -/
structure SymbolInfo where
  name : String
  mangled_name : String := ""
  symbol_type : String := ""
  size_bytes : Int := 0
  is_inline : Bool := false
  is_template : Bool := false
  definition_file : String := ""
  definition_line : Int := 0
deriving DecidableEq, Repr

/-- `CompilationUnit` dataclass from `types.py`, with its field defaults. -/
structure CompilationUnit where
  source_file : String
  compiler : CompilerType := .UNKNOWN
  total_time : Duration := ⟨0⟩
  frontend_time : Duration := ⟨0⟩
  backend_time : Duration := ⟨0⟩
  includes : List IncludeInfo := []
  templates : List TemplateInstantiation := []
  symbols : List SymbolInfo := []
deriving DecidableEq, Repr

/-- One Chrome-trace event, restricted to the keys
`CompilationUnit.from_json` consults: `name = event.get('name', '')`,
`dur = event.get('dur', 0)` (µs), and `detail` records whether
`event.get('args', {})` has a `detail` key, and its value. -/
structure TraceEvent where
  name : String
  dur : Int
  detail : Option String := none
deriving DecidableEq, Repr

/-- One iteration of the event loop in `CompilationUnit.from_json`
(`types.py` lines 212-234). -/
def processEvent (u : CompilationUnit) (e : TraceEvent) : CompilationUnit :=
  if e.name = "Total ExecuteCompiler" then
    { u with total_time := Duration.from_microseconds e.dur }
  else if e.name = "Total Frontend" then
    { u with frontend_time := Duration.from_microseconds e.dur }
  else if e.name = "Total Backend" then
    { u with backend_time := Duration.from_microseconds e.dur }
  else if e.name = "Source" then
    match e.detail with
    | some d =>
        { u with includes := u.includes ++
            [{ header_path := d, include_time := Duration.from_microseconds e.dur }] }
    | none => u
  else if e.name = "InstantiateClass" ∨ e.name = "InstantiateFunction" then
    { u with templates := u.templates ++
        [{ template_name := e.detail.getD "",
           instantiation_time := Duration.from_microseconds e.dur }] }
  else u

/-- `CompilationUnit.from_json` (`types.py` lines 205-236): start from a
fresh unit carrying only the `source_hint` and fold the `traceEvents`
array through the event loop. -/
def CompilationUnit.from_json (events : List TraceEvent) (source_hint : String) :
    CompilationUnit :=
  events.foldl processEvent { source_file := source_hint }

/-- `FileMetrics` dataclass from `types.py`, with its field defaults. -/
structure FileMetrics where
  file_path : String
  compile_time_ms : ℚ := 0
  include_count : Nat := 0
  template_instantiation_count : Nat := 0
  lines_of_code : Nat := 0
  include_depth : Nat := 0
  is_header : Bool := false
  includers : List String := []
deriving DecidableEq, Repr

/-- `IncludeMetrics` dataclass from `types.py`. -/
structure IncludeMetrics where
  total_includes : Nat := 0
  unique_includes : Nat := 0
  max_depth : Nat := 0
  total_include_time : Duration := ⟨0⟩
  most_included : List (String × Nat) := []
  slowest_includes : List (String × ℚ) := []
deriving DecidableEq, Repr

/-- `TemplateMetrics` dataclass from `types.py`. -/
structure TemplateMetrics where
  total_instantiations : Nat := 0
  unique_templates : Nat := 0
  total_template_time : Duration := ⟨0⟩
  most_instantiated : List (String × Nat) := []
  slowest_templates : List (String × ℚ) := []
deriving DecidableEq, Repr

/-- `SymbolMetrics` dataclass from `types.py`. -/
structure SymbolMetrics where
  total_symbols : Nat := 0
  inline_symbols : Nat := 0
  template_symbols : Nat := 0
  total_symbol_size : Nat := 0
deriving DecidableEq, Repr

/-- `DependencyMetrics` dataclass from `types.py`. -/
structure DependencyMetrics where
  total_dependencies : Nat := 0
  circular_dependencies : Nat := 0
  max_dependency_depth : Nat := 0
  strongly_connected_components : Nat := 0
deriving DecidableEq, Repr

/-- `AnalysisResult` dataclass from `types.py`, with its field defaults. -/
structure AnalysisResult where
  file_metrics : List FileMetrics := []
  include_metrics : IncludeMetrics := {}
  template_metrics : TemplateMetrics := {}
  symbol_metrics : SymbolMetrics := {}
  dependency_metrics : DependencyMetrics := {}
  total_compile_time : Duration := ⟨0⟩
  file_count : Nat := 0
deriving DecidableEq, Repr

/-- `d[k] = d.get(k, 0) + 1` on a CPython (insertion-ordered) dict, as an
association list: an existing key is bumped in place, a new key is appended
at the end. -/
def bumpCount : List (String × Nat) → String → List (String × Nat)
  | [], k => [(k, 1)]
  | (k', v) :: rest, k =>
      if k' = k then (k', v + 1) :: rest else (k', v) :: bumpCount rest k

/-- `d[k] = d.get(k, 0) + t` on a CPython dict of float totals, as an
insertion-ordered association list over `ℚ`. -/
def addTime : List (String × ℚ) → String → ℚ → List (String × ℚ)
  | [], k, t => [(k, t)]
  | (k', v) :: rest, k, t =>
      if k' = k then (k', v + t) :: rest else (k', v) :: addTime rest k t

/-- Fold `bumpCount` over a list of items keyed by `f`, as the inner loops
of `AnalysisResult.from_compilation_units` do per unit. -/
def bumpFold {γ : Type} (f : γ → String) (m : List (String × Nat)) (xs : List γ) :
    List (String × Nat) :=
  xs.foldl (fun m x => bumpCount m (f x)) m

/-- The `include_counts` dict after the aggregation loop of
`AnalysisResult.from_compilation_units` (`types.py` lines 384-387). -/
def includeCounts (units : List CompilationUnit) : List (String × Nat) :=
  units.foldl (fun m u => bumpFold (fun inc => inc.header_path) m u.includes) []

/-- The `include_times` dict after the aggregation loop
(`types.py` line 387). -/
def includeTimes (units : List CompilationUnit) : List (String × ℚ) :=
  units.foldl
    (fun m u =>
      u.includes.foldl (fun m inc => addTime m inc.header_path inc.include_time.milliseconds) m)
    []

/-- The `template_counts` dict after the aggregation loop
(`types.py` lines 390-392). -/
def templateCounts (units : List CompilationUnit) : List (String × Nat) :=
  units.foldl (fun m u => bumpFold (fun t => t.template_name) m u.templates) []

/-- The `template_times` dict after the aggregation loop
(`types.py` line 393). -/
def templateTimes (units : List CompilationUnit) : List (String × ℚ) :=
  units.foldl
    (fun m u =>
      u.templates.foldl
        (fun m t => addTime m t.template_name t.instantiation_time.milliseconds) m)
    []

/-- Insert `x` into a list sorted by `key` descending, after every element
whose key is ≥ `key x`, so that equal keys keep their existing order. -/
def insDescBy {α β : Type} [LinearOrder β] (key : α → β) (x : α) :
    List α → List α
  | [] => [x]
  | y :: ys => if key x ≤ key y then y :: insDescBy key x ys else x :: y :: ys

/-- Auxiliary fold for `sortDescBy`: insert the elements left to right into
an accumulator that stays sorted descending. -/
def sortFold {α β : Type} [LinearOrder β] (key : α → β) (acc : List α) :
    List α → List α
  | [] => acc
  | x :: xs => sortFold key (insDescBy key x acc) xs

/-- CPython `sorted(l, key=key, reverse=True)`: stable, descending on `key`,
equal keys keeping their original relative order. -/
def sortDescBy {α β : Type} [LinearOrder β] (key : α → β) (l : List α) : List α :=
  sortFold key [] l

/-- `AnalysisResult.from_compilation_units` (`types.py` lines 361-415).  The
single Python loop fills four independent dicts, the file-metric list and
the running compile-time total; it is rendered here as one independent fold
per accumulator (the dicts do not interact, so the decomposition is exact). -/
def AnalysisResult.from_compilation_units (units : List CompilationUnit) :
    AnalysisResult :=
  let ic := includeCounts units
  let it := includeTimes units
  let tc := templateCounts units
  let tt := templateTimes units
  { file_count := units.length,
    total_compile_time := units.foldl (fun a u => a + u.total_time) ⟨0⟩,
    file_metrics := units.map (fun u =>
      { file_path := u.source_file,
        compile_time_ms := u.total_time.milliseconds,
        include_count := u.includes.length,
        template_instantiation_count := u.templates.length }),
    include_metrics :=
      { total_includes := (ic.map Prod.snd).sum,
        unique_includes := ic.length,
        most_included := (sortDescBy Prod.snd ic).take 10,
        slowest_includes := (sortDescBy Prod.snd it).take 10 },
    template_metrics :=
      { total_instantiations := (tc.map Prod.snd).sum,
        unique_templates := tc.length,
        most_instantiated := (sortDescBy Prod.snd tc).take 10,
        slowest_templates := (sortDescBy Prod.snd tt).take 10 } }

/-- `Suggestion` dataclass from `types.py`, with its field defaults.
`code_changes` entries (`List[Dict[str, str]]`) are modelled as association
lists. -/
structure Suggestion where
  type : SuggestionType
  priority : Priority
  title : String
  description : String
  file_path : String := ""
  line_number : Nat := 0
  estimated_impact_ms : ℚ := 0
  confidence : Confidence := .MEDIUM
  affected_files : List String := []
  code_changes : List (List (String × String)) := []
deriving DecidableEq, Repr

/-- Python float formatting with zero decimals (used by the f-string
`f"... takes x:.0f ms ..."`) rounds half to even. -/
def roundHalfEven (q : ℚ) : Int :=
  let f := Rat.floor q
  if q - f < 1 / 2 then f
  else if 1 / 2 < q - f then f + 1
  else if f % 2 = 0 then f else f + 1

/-- The suggestion built for one slow translation unit in
`Analyzer._generate_suggestions_python` (`__init__.py` lines 249-257). -/
def mkSlowTU (fm : FileMetrics) : Suggestion :=
  { type := .PCH,
    priority := .HIGH,
    title := "Consider PCH for " ++ fm.file_path,
    description := "File takes " ++ toString (roundHalfEven fm.compile_time_ms)
      ++ "ms to compile",
    file_path := fm.file_path,
    estimated_impact_ms := fm.compile_time_ms * (3 / 10),
    confidence := .MEDIUM }

/-- Loop body of `Analyzer._generate_suggestions_python`: append one
suggestion when `fm.compile_time_ms > 5000`, otherwise keep the
accumulator. -/
def genStep (acc : List Suggestion) (fm : FileMetrics) : List Suggestion :=
  if 5000 < fm.compile_time_ms then acc ++ [mkSlowTU fm] else acc

/-- `Analyzer._generate_suggestions_python` (`__init__.py` lines 241-259):
one pass over `file_metrics` appending one slow-TU suggestion per file with
`compile_time_ms > 5000`.  No other rule exists in this implementation, and
the resulting list is returned without any sorting. -/
def generate_suggestions_python (file_metrics : List FileMetrics) : List Suggestion :=
  file_metrics.foldl genStep []

/-- Per-event include contribution of the parser loop: a `Source` event
with a `detail` key yields one `IncludeInfo`; a `Source` event without
`detail` (and any other event) yields nothing. -/
def incOf (e : TraceEvent) : Option IncludeInfo :=
  if e.name = "Source" then
    e.detail.map (fun d =>
      { header_path := d, include_time := Duration.from_microseconds e.dur })
  else none

/-- Per-event template contribution of the parser loop: an
`InstantiateClass` or `InstantiateFunction` event always yields one
`TemplateInstantiation`, with `template_name = ""` when `detail` is
missing. -/
def tmplOf (e : TraceEvent) : Option TemplateInstantiation :=
  if e.name = "InstantiateClass" ∨ e.name = "InstantiateFunction" then
    some { template_name := e.detail.getD "",
           instantiation_time := Duration.from_microseconds e.dur }
  else none

/-- The per-entry decision of the slow-TU rule, used to characterise the
suggester output as a `filterMap`. -/
def optSlow (fm : FileMetrics) : Option Suggestion :=
  if 5000 < fm.compile_time_ms then some (mkSlowTU fm) else none

/-- One translation unit of spec scenario S2: it includes header `H` once
with a 60 ms include time (dur is in µs). -/
def s2Unit (name : String) : CompilationUnit :=
  CompilationUnit.from_json [{ name := "Source", dur := 60000, detail := some "H" }] name

/-- The twelve distinct translation units of spec scenario S2. -/
def s2Units : List CompilationUnit :=
  [s2Unit "u00.cpp", s2Unit "u01.cpp", s2Unit "u02.cpp", s2Unit "u03.cpp",
   s2Unit "u04.cpp", s2Unit "u05.cpp", s2Unit "u06.cpp", s2Unit "u07.cpp",
   s2Unit "u08.cpp", s2Unit "u09.cpp", s2Unit "u10.cpp", s2Unit "u11.cpp"]

/-- A unit whose compile time is far below the slow-TU threshold (dur is in
µs, so 100 µs total). -/
def fastUnit : CompilationUnit :=
  CompilationUnit.from_json [{ name := "Total ExecuteCompiler", dur := 100 }] "f.cpp"

/-- A unit compiling in 6000 ms (dur is in µs). -/
def slowUnitA : CompilationUnit :=
  CompilationUnit.from_json [{ name := "Total ExecuteCompiler", dur := 6000000 }] "a.cpp"

/-- A unit compiling in 7000 ms (dur is in µs). -/
def slowUnitB : CompilationUnit :=
  CompilationUnit.from_json [{ name := "Total ExecuteCompiler", dur := 7000000 }] "b.cpp"

/-- A unit including `b.h` before `a.h`, once each, so that the two headers
tie on occurrence count. -/
def tieUnit : CompilationUnit :=
  CompilationUnit.from_json
    [{ name := "Source", dur := 10, detail := some "b.h" },
     { name := "Source", dur := 10, detail := some "a.h" }] "t.cpp"

/-- Trace events with negative `dur` values. -/
def negEvents : List TraceEvent :=
  [{ name := "Total ExecuteCompiler", dur := -5 },
   { name := "Source", dur := -7, detail := some "h" }]

/-- The unit parsed from `negEvents`. -/
def negUnit : CompilationUnit := CompilationUnit.from_json negEvents "t.cpp"

/-- A file metric above the 5000 ms slow-TU threshold. -/
def fmSlow : FileMetrics := { file_path := "big.cpp", compile_time_ms := 6000 }

/-- A file metric below the 5000 ms slow-TU threshold. -/
def fmFast : FileMetrics := { file_path := "small.cpp", compile_time_ms := 10 }

/-- An `InstantiateClass` event whose `args` has no `detail` key. -/
def instNoDetail : TraceEvent := { name := "InstantiateClass", dur := 42 }

/-- Membership in an insertion: exactly the inserted element and the old
elements. -/
theorem mem_insDescBy {α β : Type} [LinearOrder β] (key : α → β) (x a : α) :
    ∀ l : List α, a ∈ insDescBy key x l ↔ a = x ∨ a ∈ l
  | [] => by simp [insDescBy]
  | y :: ys => by
    by_cases h : key x ≤ key y
    · simp only [insDescBy, if_pos h, List.mem_cons, mem_insDescBy key x a ys]
      tauto
    · simp only [insDescBy, if_neg h, List.mem_cons]

/-- Insertion grows the length by one. -/
theorem length_insDescBy {α β : Type} [LinearOrder β] (key : α → β) (x : α) :
    ∀ l : List α, (insDescBy key x l).length = l.length + 1
  | [] => rfl
  | y :: ys => by
    by_cases h : key x ≤ key y
    · simp [insDescBy, if_pos h, length_insDescBy key x ys]
    · simp [insDescBy, if_neg h]

/-- The old list is a sublist of the insertion result. -/
theorem sublist_insDescBy {α β : Type} [LinearOrder β] (key : α → β) (x : α) :
    ∀ l : List α, l.Sublist (insDescBy key x l)
  | [] => List.nil_sublist _
  | y :: ys => by
    by_cases h : key x ≤ key y
    · simpa [insDescBy, if_pos h] using List.Sublist.cons₂ y (sublist_insDescBy key x ys)
    · simp only [insDescBy, if_neg h]
      exact List.sublist_cons_self x (y :: ys)

/-- The inserted element is a member of the insertion result. -/
theorem self_mem_insDescBy {α β : Type} [LinearOrder β] (key : α → β) (x : α)
    (l : List α) : x ∈ insDescBy key x l :=
  (mem_insDescBy key x x l).mpr (Or.inl rfl)

/-- Insertion preserves the descending-sorted invariant. -/
theorem sorted_insDescBy {α β : Type} [LinearOrder β] (key : α → β) (x : α) :
    ∀ l : List α, l.Pairwise (fun a b => key b ≤ key a) →
      (insDescBy key x l).Pairwise (fun a b => key b ≤ key a)
  | [], _ => List.pairwise_singleton _ x
  | y :: ys, h => by
    rcases List.pairwise_cons.mp h with ⟨hy, hys⟩
    by_cases hxy : key x ≤ key y
    · rw [insDescBy, if_pos hxy]
      refine List.pairwise_cons.mpr ⟨?_, sorted_insDescBy key x ys hys⟩
      intro b hb
      rcases (mem_insDescBy key x b ys).mp hb with rfl | hb'
      · exact hxy
      · exact hy b hb'
    · rw [insDescBy, if_neg hxy]
      refine List.pairwise_cons.mpr ⟨?_, h⟩
      intro b hb
      rcases List.mem_cons.mp hb with rfl | hb'
      · exact le_of_lt (lt_of_not_le hxy)
      · exact le_trans (hy b hb') (le_of_lt (lt_of_not_le hxy))

/-- Stability core: inserting `x` into a sorted list places it after every
existing element whose key is ≥ `key x`. -/
theorem pair_sublist_insDescBy {α β : Type} [LinearOrder β] (key : α → β)
    (x a : α) :
    ∀ l : List α, l.Pairwise (fun p q => key q ≤ key p) → a ∈ l →
      key x ≤ key a → [a, x].Sublist (insDescBy key x l)
  | [], _, ha, _ => absurd ha (List.not_mem_nil a)
  | y :: ys, h, ha, hxa => by
    rcases List.pairwise_cons.mp h with ⟨hy, hys⟩
    by_cases hxy : key x ≤ key y
    · rw [insDescBy, if_pos hxy]
      rcases List.mem_cons.mp ha with rfl | ha'
      · exact List.Sublist.cons₂ a
          (List.singleton_sublist.mpr (self_mem_insDescBy key x ys))
      · exact List.Sublist.cons y (pair_sublist_insDescBy key x a ys hys ha' hxa)
    · exfalso
      rcases List.mem_cons.mp ha with rfl | ha'
      · exact hxy hxa
      · exact hxy (le_trans hxa (hy a ha'))

/-- Combined specification of the insertion fold behind `sortDescBy`:
the result stays sorted, has the expected length, keeps existing relative
orders, and every element inserted later goes after earlier equal-key
elements (CPython sort stability). -/
theorem sortFold_spec {α β : Type} [LinearOrder β] (key : α → β) :
    ∀ (l acc : List α), acc.Pairwise (fun p q => key q ≤ key p) →
      (sortFold key acc l).Pairwise (fun p q => key q ≤ key p)
      ∧ (sortFold key acc l).length = acc.length + l.length
      ∧ (∀ a b : α, [a, b].Sublist acc → [a, b].Sublist (sortFold key acc l))
      ∧ (∀ a b : α, a ∈ acc → b ∈ l → key a = key b →
          [a, b].Sublist (sortFold key acc l))
      ∧ (∀ a b : α, [a, b].Sublist l → key a = key b →
          [a, b].Sublist (sortFold key acc l))
  | [], acc, h => by
    refine ⟨h, by simp [sortFold], fun a b hab => by simpa [sortFold] using hab,
      fun a b _ hb _ => absurd hb (List.not_mem_nil b),
      fun a b hab _ => ?_⟩
    have := List.sublist_nil.mp hab
    simp at this
  | x :: xs, acc, h => by
    have h' := sorted_insDescBy key x acc h
    obtain ⟨ih1, ih2, ih3, ih4, ih5⟩ := sortFold_spec key xs (insDescBy key x acc) h'
    have hstep : sortFold key acc (x :: xs) = sortFold key (insDescBy key x acc) xs := rfl
    refine ⟨hstep ▸ ih1, ?_, ?_, ?_, ?_⟩
    · rw [hstep, ih2, length_insDescBy key x acc, List.length_cons]
      omega
    · intro a b hab
      rw [hstep]
      exact ih3 a b (hab.trans (sublist_insDescBy key x acc))
    · intro a b ha hb heq
      rw [hstep]
      rcases List.mem_cons.mp hb with rfl | hb'
      · exact ih3 a b (pair_sublist_insDescBy key b a acc h ha (le_of_eq heq.symm))
      · exact ih4 a b ((mem_insDescBy key x a acc).mpr (Or.inr ha)) hb' heq
    · intro a b hab heq
      rw [hstep]
      cases hab with
      | cons _ htail => exact ih5 a b htail heq
      | cons₂ _ htail =>
        exact ih4 x b (self_mem_insDescBy key x acc)
          (htail.subset (List.mem_singleton_self b)) heq

/-- `sortDescBy` sorts descending on the key. -/
theorem sortDescBy_sorted {α β : Type} [LinearOrder β] (key : α → β)
    (l : List α) : (sortDescBy key l).Pairwise (fun p q => key q ≤ key p) :=
  (sortFold_spec key l [] List.Pairwise.nil).1

/-- `sortDescBy` is a permutation in particular in length. -/
theorem sortDescBy_length {α β : Type} [LinearOrder β] (key : α → β)
    (l : List α) : (sortDescBy key l).length = l.length := by
  have := (sortFold_spec key l [] List.Pairwise.nil).2.1
  simpa [sortDescBy] using this

/-- `sortDescBy` is stable: equal-key elements keep their original relative
order. -/
theorem sortDescBy_stable {α β : Type} [LinearOrder β] (key : α → β)
    (l : List α) (a b : α) (hab : [a, b].Sublist l) (heq : key a = key b) :
    [a, b].Sublist (sortDescBy key l) :=
  (sortFold_spec key l [] List.Pairwise.nil).2.2.2.2 a b hab heq

/-- Field effects of one parser-loop iteration: `source_file` and
`compiler` are untouched, and the event contributes `incOf e` / `tmplOf e`
at the end of the `includes` / `templates` lists. -/
theorem processEvent_fields (u : CompilationUnit) (e : TraceEvent) :
    (processEvent u e).source_file = u.source_file
    ∧ (processEvent u e).compiler = u.compiler
    ∧ (processEvent u e).includes = u.includes ++ (incOf e).toList
    ∧ (processEvent u e).templates = u.templates ++ (tmplOf e).toList := by
  by_cases h1 : e.name = "Total ExecuteCompiler"
  · simp [processEvent, incOf, tmplOf, h1]
  · by_cases h2 : e.name = "Total Frontend"
    · simp [processEvent, incOf, tmplOf, h1, h2]
    · by_cases h3 : e.name = "Total Backend"
      · simp [processEvent, incOf, tmplOf, h1, h2, h3]
      · by_cases h4 : e.name = "Source"
        · cases hd : e.detail with
          | some d => simp [processEvent, incOf, tmplOf, h1, h2, h3, h4, hd]
          | none => simp [processEvent, incOf, tmplOf, h1, h2, h3, h4, hd]
        · by_cases h5 : e.name = "InstantiateClass" ∨ e.name = "InstantiateFunction"
          · simp [processEvent, incOf, tmplOf, h1, h2, h3, h4, h5]
          · simp [processEvent, incOf, tmplOf, h1, h2, h3, h4, h5]

/-- Specification of the whole parser fold, generalised over the starting
unit. -/
theorem foldl_processEvent_spec :
    ∀ (events : List TraceEvent) (u : CompilationUnit),
      (events.foldl processEvent u).source_file = u.source_file
      ∧ (events.foldl processEvent u).compiler = u.compiler
      ∧ (events.foldl processEvent u).includes = u.includes ++ events.filterMap incOf
      ∧ (events.foldl processEvent u).templates = u.templates ++ events.filterMap tmplOf
  | [], u => by simp
  | e :: events, u => by
    obtain ⟨p1, p2, p3, p4⟩ := processEvent_fields u e
    obtain ⟨q1, q2, q3, q4⟩ := foldl_processEvent_spec events (processEvent u e)
    have hstep : (e :: events).foldl processEvent u = events.foldl processEvent (processEvent u e) := rfl
    rw [hstep]
    refine ⟨q1.trans p1, q2.trans p2, ?_, ?_⟩
    · rw [q3, p3, List.filterMap_cons]
      cases h : incOf e <;> simp [h, Option.toList]
    · rw [q4, p4, List.filterMap_cons]
      cases h : tmplOf e <;> simp [h, Option.toList]

/-- The parsed unit's `includes` are exactly the per-event include
contributions, in event order. -/
theorem from_json_includes (events : List TraceEvent) (hint : String) :
    (CompilationUnit.from_json events hint).includes = events.filterMap incOf := by
  have := (foldl_processEvent_spec events { source_file := hint }).2.2.1
  simpa [CompilationUnit.from_json] using this

/-- The parsed unit's `templates` are exactly the per-event template
contributions, in event order. -/
theorem from_json_templates (events : List TraceEvent) (hint : String) :
    (CompilationUnit.from_json events hint).templates = events.filterMap tmplOf := by
  have := (foldl_processEvent_spec events { source_file := hint }).2.2.2
  simpa [CompilationUnit.from_json] using this

/-- Bumping a key adds exactly one to the total of all counts. -/
theorem sum_bumpCount : ∀ (m : List (String × Nat)) (k : String),
    ((bumpCount m k).map Prod.snd).sum = ((m.map Prod.snd).sum) + 1
  | [], k => by simp [bumpCount]
  | (k', v) :: rest, k => by
    by_cases h : k' = k
    · simp [bumpCount, if_pos h]
      omega
    · simp [bumpCount, if_neg h, sum_bumpCount rest k]
      omega

/-- Bumping preserves positivity of every stored count. -/
theorem pos_bumpCount : ∀ (m : List (String × Nat)) (k : String),
    (∀ p ∈ m, 1 ≤ p.2) → ∀ p ∈ bumpCount m k, 1 ≤ p.2
  | [], k, _, p, hp => by
    simp [bumpCount] at hp
    simp [hp]
  | (k', v) :: rest, k, h, p, hp => by
    by_cases hk : k' = k
    · rw [bumpCount, if_pos hk] at hp
      rcases List.mem_cons.mp hp with rfl | hp'
      · simp
      · exact h p (List.mem_cons_of_mem _ hp')
    · rw [bumpCount, if_neg hk] at hp
      rcases List.mem_cons.mp hp with rfl | hp'
      · exact h _ (List.mem_cons_self _ _)
      · exact pos_bumpCount rest k (fun q hq => h q (List.mem_cons_of_mem _ hq)) p hp'

/-- A list of positive counts has length at most its total. -/
theorem length_le_sum_of_pos : ∀ m : List (String × Nat),
    (∀ p ∈ m, 1 ≤ p.2) → m.length ≤ (m.map Prod.snd).sum
  | [], _ => le_refl 0
  | p :: rest, h => by
    have hp := h p (List.mem_cons_self _ _)
    have := length_le_sum_of_pos rest (fun q hq => h q (List.mem_cons_of_mem _ hq))
    simp only [List.length_cons, List.map_cons, List.sum_cons]
    omega

/-- Folding a batch of items into the count dict adds the batch size to the
total of all counts. -/
theorem sum_bumpFold {γ : Type} (f : γ → String) :
    ∀ (xs : List γ) (m : List (String × Nat)),
      ((bumpFold f m xs).map Prod.snd).sum = (m.map Prod.snd).sum + xs.length
  | [], m => by simp [bumpFold]
  | x :: xs, m => by
    have hstep : bumpFold f m (x :: xs) = bumpFold f (bumpCount m (f x)) xs := rfl
    rw [hstep, sum_bumpFold f xs, sum_bumpCount, List.length_cons]
    omega

/-- Folding a batch of items into the count dict preserves positivity. -/
theorem pos_bumpFold {γ : Type} (f : γ → String) :
    ∀ (xs : List γ) (m : List (String × Nat)),
      (∀ p ∈ m, 1 ≤ p.2) → ∀ p ∈ bumpFold f m xs, 1 ≤ p.2
  | [], m, h => h
  | x :: xs, m, h => by
    have hstep : bumpFold f m (x :: xs) = bumpFold f (bumpCount m (f x)) xs := rfl
    rw [hstep]
    exact pos_bumpFold f xs (bumpCount m (f x)) (pos_bumpCount m (f x) h)

/-- The total of the `include_counts` dict is the total number of include
entries across all units. -/
theorem sum_includeCounts_aux :
    ∀ (units : List CompilationUnit) (m : List (String × Nat)),
      ((units.foldl (fun m u => bumpFold (fun inc => inc.header_path) m u.includes) m).map
          Prod.snd).sum
        = (m.map Prod.snd).sum + (units.map (fun u => u.includes.length)).sum
  | [], m => by simp
  | u :: units, m => by
    have hstep :
        (u :: units).foldl (fun m u => bumpFold (fun inc => inc.header_path) m u.includes) m
          = units.foldl (fun m u => bumpFold (fun inc => inc.header_path) m u.includes)
              (bumpFold (fun inc => inc.header_path) m u.includes) := rfl
    rw [hstep, sum_includeCounts_aux units, sum_bumpFold]
    simp
    omega

/-- Every count stored in `include_counts` is at least one. -/
theorem pos_includeCounts_aux :
    ∀ (units : List CompilationUnit) (m : List (String × Nat)),
      (∀ p ∈ m, 1 ≤ p.2) →
        ∀ p ∈ units.foldl (fun m u => bumpFold (fun inc => inc.header_path) m u.includes) m,
          1 ≤ p.2
  | [], _, h => h
  | u :: units, m, h => by
    have hstep :
        (u :: units).foldl (fun m u => bumpFold (fun inc => inc.header_path) m u.includes) m
          = units.foldl (fun m u => bumpFold (fun inc => inc.header_path) m u.includes)
              (bumpFold (fun inc => inc.header_path) m u.includes) := rfl
    rw [hstep]
    exact pos_includeCounts_aux units _ (pos_bumpFold _ u.includes m h)

/-- Projection: the aggregator's `file_metrics` is one entry per unit, in
input order. -/
theorem file_metrics_eq (units : List CompilationUnit) :
    (AnalysisResult.from_compilation_units units).file_metrics
      = units.map (fun u =>
          { file_path := u.source_file,
            compile_time_ms := u.total_time.milliseconds,
            include_count := u.includes.length,
            template_instantiation_count := u.templates.length }) := rfl

/-- Projection: `total_includes` is the total of the count dict. -/
theorem total_includes_eq (units : List CompilationUnit) :
    (AnalysisResult.from_compilation_units units).include_metrics.total_includes
      = ((includeCounts units).map Prod.snd).sum := rfl

/-- Projection: `unique_includes` is the size of the count dict. -/
theorem unique_includes_eq (units : List CompilationUnit) :
    (AnalysisResult.from_compilation_units units).include_metrics.unique_includes
      = (includeCounts units).length := rfl

/-- Projection: `most_included` is the ten largest counts, stably sorted
descending. -/
theorem most_included_eq (units : List CompilationUnit) :
    (AnalysisResult.from_compilation_units units).include_metrics.most_included
      = (sortDescBy Prod.snd (includeCounts units)).take 10 := rfl

/-- The suggester fold appends exactly the per-entry decisions, in input
order. -/
theorem genFold_eq : ∀ (ms : List FileMetrics) (acc : List Suggestion),
    ms.foldl genStep acc = acc ++ ms.filterMap optSlow
  | [], acc => by simp
  | fm :: ms, acc => by
    have hstep : (fm :: ms).foldl genStep acc = ms.foldl genStep (genStep acc fm) := rfl
    rw [hstep, genFold_eq ms, List.filterMap_cons]
    by_cases h : 5000 < fm.compile_time_ms
    · simp [genStep, optSlow, if_pos h]
    · simp [genStep, optSlow, if_neg h]

/-- The pure-Python suggester is exactly a `filterMap` of the slow-TU rule
over `file_metrics`, in input order. -/
theorem generate_eq_filterMap (ms : List FileMetrics) :
    generate_suggestions_python ms = ms.filterMap optSlow := by
  have := genFold_eq ms []
  simpa [generate_suggestions_python] using this

/-- Counting suggestions for a given path reduces to counting the file
metrics entries for that path that pass the slow-TU threshold. -/
theorem countP_generate : ∀ (ms : List FileMetrics) (target : String),
    (generate_suggestions_python ms).countP (fun s => s.file_path == target)
      = ms.countP (fun fm => (fm.file_path == target) && decide (5000 < fm.compile_time_ms))
  | [], _ => rfl
  | fm :: ms, target => by
    rw [generate_eq_filterMap] at *
    rw [List.filterMap_cons]
    by_cases h : 5000 < fm.compile_time_ms
    · rw [show optSlow fm = some (mkSlowTU fm) from if_pos h]
      rw [List.countP_cons, List.countP_cons]
      have hmk : (mkSlowTU fm).file_path = fm.file_path := rfl
      have := countP_generate ms target
      rw [generate_eq_filterMap] at this
      rw [this, hmk]
      simp [h]
    · rw [show optSlow fm = none from if_neg h]
      rw [List.countP_cons]
      have := countP_generate ms target
      rw [generate_eq_filterMap] at this
      rw [this]
      simp [h]

/-- A path not present in a metrics list is never counted. -/
theorem countP_metrics_zero (target : String) (q : FileMetrics → Bool) :
    ∀ ms : List FileMetrics, (target ∉ ms.map (fun fm => fm.file_path)) →
      ms.countP (fun fm => (fm.file_path == target) && q fm) = 0
  | [], _ => rfl
  | fm :: ms, h => by
    have h1 : fm.file_path ≠ target := by
      intro hc
      exact h (by simp [hc.symm])
    have h2 : target ∉ ms.map (fun fm => fm.file_path) := by
      intro hc
      exact h (by simp [List.mem_cons]; right; simpa using hc)
    rw [List.countP_cons, countP_metrics_zero target q ms h2]
    simp [h1]

/-- With pairwise-distinct paths, the count of threshold-passing entries
for the path of a given member is one or zero depending on that member
alone. -/
theorem countP_metrics_single (q : FileMetrics → Bool) :
    ∀ (ms : List FileMetrics), (ms.map (fun fm => fm.file_path)).Nodup →
      ∀ fm ∈ ms,
        ms.countP (fun x => (x.file_path == fm.file_path) && q x)
          = if q fm then 1 else 0
  | [], _, fm, hfm => absurd hfm (List.not_mem_nil fm)
  | x :: ms, hnd, fm, hfm => by
    rw [List.map_cons, List.nodup_cons] at hnd
    obtain ⟨hx, hnd'⟩ := hnd
    rcases List.mem_cons.mp hfm with rfl | hfm'
    · rw [List.countP_cons, countP_metrics_zero fm.file_path q ms hx]
      simp
    · have hne : x.file_path ≠ fm.file_path := by
        intro hc
        exact hx (hc ▸ List.mem_map_of_mem (fun fm => fm.file_path) hfm')
      rw [List.countP_cons, countP_metrics_single q ms hnd' fm hfm']
      simp [hne]

/-- Claim C4, counterexample: a document whose `traceEvents` array was
consumed still yields `compiler = Unknown`, not `Clang`. -/
theorem c4_counterexample :
    (CompilationUnit.from_json [{ name := "Total ExecuteCompiler", dur := 100 }]
        "t.cpp").compiler = CompilerType.UNKNOWN
    ∧ CompilerType.UNKNOWN ≠ CompilerType.CLANG := by
  exact ⟨rfl, by decide⟩

/-- Claim C4 (amended): the Chrome-trace parser never writes the
`compiler` field, so every parsed `CompilationUnit` keeps the dataclass
default `Unknown` (the spec's `Clang` is never set). -/
theorem c4_compiler_stays_unknown (events : List TraceEvent) (hint : String) :
    (CompilationUnit.from_json events hint).compiler = CompilerType.UNKNOWN :=
  ((foldl_processEvent_spec events { source_file := hint }).2.1).trans rfl

/-- Claim C5, counterexample: subtracting a larger `Duration` yields a
negative nanosecond count instead of clamping at zero. -/
theorem c5_counterexample :
    ((⟨1⟩ : Duration) - ⟨2⟩) = ⟨-1⟩ ∧ (((⟨1⟩ : Duration) - ⟨2⟩).ns < 0) := by
  exact ⟨rfl, by decide⟩

/-- Claim C5 (amended): `Duration.__sub__` is the exact integer difference
of the nanosecond counts — the result is negative exactly when the
subtrahend exceeds the minuend, with no clamping at zero. -/
theorem c5_sub_is_exact_difference (a b : Duration) :
    (a - b).ns = a.ns - b.ns
    ∧ ((a - b).ns < 0 ↔ a.ns < b.ns)
    ∧ (a - b) + b = a := by
  refine ⟨rfl, sub_neg, ?_⟩
  show Duration.mk (a.ns - b.ns + b.ns) = a
  rw [sub_add_cancel]

/-- Claim C7: the aggregated `total_includes` is the total number of
include entries across all units, and `unique_includes` never exceeds it. -/
theorem c7_include_totals (units : List CompilationUnit) :
    (AnalysisResult.from_compilation_units units).include_metrics.total_includes
      = (units.map (fun u => u.includes.length)).sum
    ∧ (AnalysisResult.from_compilation_units units).include_metrics.unique_includes
      ≤ (AnalysisResult.from_compilation_units units).include_metrics.total_includes := by
  constructor
  · rw [total_includes_eq]
    have := sum_includeCounts_aux units []
    simpa [includeCounts] using this
  · rw [total_includes_eq, unique_includes_eq]
    exact length_le_sum_of_pos _
      (pos_includeCounts_aux units [] (fun p hp => absurd hp (List.not_mem_nil p)))

/-- Claim C8: aggregating an empty list of compilation units is total and
returns a result with `file_count = 0`, zero totals, and every metric list
empty. -/
theorem c8_empty_input :
    (AnalysisResult.from_compilation_units []).file_count = 0
    ∧ (AnalysisResult.from_compilation_units []).file_metrics = []
    ∧ (AnalysisResult.from_compilation_units []).total_compile_time = ⟨0⟩
    ∧ (AnalysisResult.from_compilation_units []).include_metrics.total_includes = 0
    ∧ (AnalysisResult.from_compilation_units []).include_metrics.unique_includes = 0
    ∧ (AnalysisResult.from_compilation_units []).include_metrics.total_include_time = ⟨0⟩
    ∧ (AnalysisResult.from_compilation_units []).include_metrics.most_included = []
    ∧ (AnalysisResult.from_compilation_units []).include_metrics.slowest_includes = []
    ∧ (AnalysisResult.from_compilation_units []).template_metrics.total_instantiations = 0
    ∧ (AnalysisResult.from_compilation_units []).template_metrics.unique_templates = 0
    ∧ (AnalysisResult.from_compilation_units []).template_metrics.most_instantiated = []
    ∧ (AnalysisResult.from_compilation_units []).template_metrics.slowest_templates = [] :=
  ⟨rfl, rfl, rfl, rfl, rfl, rfl, rfl, rfl, rfl, rfl, rfl, rfl⟩

/-- Claim C10: the parsed `templates` are exactly the per-event
contributions in event order, where an `InstantiateClass` or
`InstantiateFunction` event always contributes — with `template_name = ""`
when `args` lacks `detail` — while `includes` contains only `Source` events
that do carry `detail` (the detail-less ones are dropped).  In particular a
detail-less instantiation event lands in `templates` under the empty
name. -/
theorem c10_missing_detail_instantiation (events : List TraceEvent) (hint : String) :
    (CompilationUnit.from_json events hint).templates = events.filterMap tmplOf
    ∧ (CompilationUnit.from_json events hint).includes = events.filterMap incOf
    ∧ ∀ e ∈ events, (e.name = "InstantiateClass" ∨ e.name = "InstantiateFunction") →
        e.detail = none →
        ({ template_name := "",
           instantiation_time := Duration.from_microseconds e.dur } : TemplateInstantiation)
          ∈ (CompilationUnit.from_json events hint).templates := by
  refine ⟨from_json_templates events hint, from_json_includes events hint, ?_⟩
  intro e he hn hd
  rw [from_json_templates]
  exact List.mem_filterMap.mpr ⟨e, he, by simp [tmplOf, hn, hd]⟩

/-- Claim C10, witness: a concrete `InstantiateClass` event with no
`detail` key produces a template entry named `""`. -/
theorem c10_missing_detail_instantiation_witness :
    ({ template_name := "",
       instantiation_time := Duration.from_microseconds 42 } : TemplateInstantiation)
      ∈ (CompilationUnit.from_json [instNoDetail] "x.cpp").templates :=
  (c10_missing_detail_instantiation [instNoDetail] "x.cpp").2.2 instNoDetail
    (List.mem_cons_self _ _) (Or.inl rfl) rfl

/-- Claim C6, counterexample: negative `dur` values are not clamped — the
parsed total time and include time are negative. -/
theorem c6_counterexample :
    negUnit.total_time.ns = -5000
    ∧ negUnit.total_time.ns < 0
    ∧ negUnit.includes.map (fun i => i.include_time.ns) = [-7000] := by
  refine ⟨rfl, by decide, rfl⟩

/-- Claim C6 (amended): the parser stores `dur * 1000` nanoseconds without
any clamping, so every include's stored time is exactly its event's `dur`
scaled — and a negative `dur` yields a negative stored time. -/
theorem c6_negative_dur_not_clamped (events : List TraceEvent) (hint : String)
    (inc : IncludeInfo)
    (h : inc ∈ (CompilationUnit.from_json events hint).includes) :
    (∃ e ∈ events, e.name = "Source" ∧ e.detail = some inc.header_path
      ∧ inc.include_time.ns = e.dur * 1000)
    ∧ ∀ us : Int, us < 0 → (Duration.from_microseconds us).ns < 0 := by
  constructor
  · rw [from_json_includes] at h
    obtain ⟨e, he, hsome⟩ := List.mem_filterMap.mp h
    by_cases hs : e.name = "Source"
    · rw [incOf, if_pos hs] at hsome
      cases hd : e.detail with
      | none =>
        rw [hd] at hsome
        simp at hsome
      | some d =>
        rw [hd] at hsome
        rw [Option.map_some'] at hsome
        obtain rfl := Option.some.inj hsome
        exact ⟨e, he, hs, hd, rfl⟩
    · rw [incOf, if_neg hs] at hsome
      simp at hsome
  · intro us hus
    show us * 1000 < 0
    exact mul_neg_of_neg_of_pos hus (by norm_num)

/-- Claim C6, witness: the negative-`dur` trace exhibits a concrete include
whose stored time is its `dur` scaled by 1000 (and negative). -/
theorem c6_negative_dur_not_clamped_witness :
    (∃ e ∈ negEvents, e.name = "Source"
      ∧ e.detail = some (({ header_path := "h", include_time := ⟨-7000⟩ } : IncludeInfo)).header_path
      ∧ (({ header_path := "h", include_time := ⟨-7000⟩ } : IncludeInfo)).include_time.ns = e.dur * 1000)
    ∧ ∀ us : Int, us < 0 → (Duration.from_microseconds us).ns < 0 :=
  c6_negative_dur_not_clamped negEvents "t.cpp"
    { header_path := "h", include_time := ⟨-7000⟩ } (by decide)

/-- Claim C1, counterexample: the S2 build input satisfies the claimed
trigger — header `H` is included once by each of 12 distinct translation
units (count 12 ≥ 10) — yet the suggester output is empty: it contains no
PCH suggestion for `H` at all. -/
theorem c1_counterexample :
    includeCounts s2Units = [("H", 12)]
    ∧ s2Units.length = 12
    ∧ (s2Units.map (fun u => u.source_file)).Nodup
    ∧ (s2Units.map (fun u => u.includes.map (fun i => i.include_time.ns)))
        = List.replicate 12 [60000000]
    ∧ generate_suggestions_python
        (AnalysisResult.from_compilation_units s2Units).file_metrics = [] := by
  refine ⟨by decide, rfl, by decide, by decide, ?_⟩
  rw [generate_eq_filterMap, file_metrics_eq]
  rw [List.filterMap_eq_nil_iff]
  intro fm hfm
  obtain ⟨u, hu, rfl⟩ := List.mem_map.mp hfm
  have hall : ∀ v ∈ s2Units, v.total_time.ns = 0 := by decide
  have hns : u.total_time.ns = 0 := hall u hu
  rw [optSlow, if_neg ?_]
  show ¬ 5000 < u.total_time.milliseconds
  rw [Duration.milliseconds, hns]
  norm_num

/-- Claim C1 (amended): the pure-Python suggester has no header-based
PCH-candidate rule; its only rule keys on per-file compile time, so on any
input whose units all compile in at most 5000 ms the output is empty — in
particular no PCH suggestion is emitted for a heavily-included header. -/
theorem c1_no_header_pch_rule (units : List CompilationUnit)
    (h : ∀ u ∈ units, u.total_time.milliseconds ≤ 5000) :
    generate_suggestions_python
      (AnalysisResult.from_compilation_units units).file_metrics = [] := by
  rw [generate_eq_filterMap, file_metrics_eq, List.filterMap_eq_nil_iff]
  intro fm hfm
  obtain ⟨u, hu, rfl⟩ := List.mem_map.mp hfm
  rw [optSlow, if_neg ?_]
  show ¬ 5000 < u.total_time.milliseconds
  exact not_lt.mpr (h u hu)

/-- Claim C1, witness: a concrete unit below the threshold yields an empty
suggestion list. -/
theorem c1_no_header_pch_rule_witness :
    generate_suggestions_python
      (AnalysisResult.from_compilation_units [fastUnit]).file_metrics = [] := by
  refine c1_no_header_pch_rule [fastUnit] ?_
  intro u hu
  rw [List.mem_singleton] at hu
  subst hu
  have hns : fastUnit.total_time.ns = 100000 := rfl
  rw [Duration.milliseconds, hns]
  norm_num

/-- Claim C2, counterexample: two headers tying on count come out in
first-occurrence order (`b.h` before `a.h`), not in alphabetical order,
although `a.h` precedes `b.h` alphabetically. -/
theorem c2_counterexample :
    (AnalysisResult.from_compilation_units [tieUnit]).include_metrics.most_included
      = [("b.h", 1), ("a.h", 1)]
    ∧ ("a.h").data < ("b.h").data := by
  exact ⟨by decide, by decide⟩

/-- Claim C2 (amended): `most_included` has length at most
`min 10 unique_includes` and is sorted by count descending, but the
tie-break is the CPython stable-sort order — equal-count headers keep the
relative order of their first occurrence in the `include_counts` dict, not
alphabetical order. -/
theorem c2_most_included_order (units : List CompilationUnit)
    (a b : String × Nat)
    (hab : [a, b].Sublist (includeCounts units)) (heq : a.2 = b.2) :
    ((AnalysisResult.from_compilation_units units).include_metrics.most_included).length
      ≤ min 10 (AnalysisResult.from_compilation_units units).include_metrics.unique_includes
    ∧ ((AnalysisResult.from_compilation_units units).include_metrics.most_included).Pairwise
        (fun p q => q.2 ≤ p.2)
    ∧ [a, b].Sublist (sortDescBy Prod.snd (includeCounts units)) := by
  refine ⟨?_, ?_, sortDescBy_stable Prod.snd _ a b hab heq⟩
  · rw [most_included_eq, unique_includes_eq, List.length_take, sortDescBy_length]
  · rw [most_included_eq]
    exact List.Pairwise.sublist (List.take_sublist 10 _) (sortDescBy_sorted Prod.snd _)

/-- Claim C2, witness: on the tie input the bounds hold and the two tied
headers keep their first-occurrence order in the sorted dict. -/
theorem c2_most_included_order_witness :
    ((AnalysisResult.from_compilation_units [tieUnit]).include_metrics.most_included).length
      ≤ min 10 (AnalysisResult.from_compilation_units [tieUnit]).include_metrics.unique_includes
    ∧ ((AnalysisResult.from_compilation_units [tieUnit]).include_metrics.most_included).Pairwise
        (fun p q => q.2 ≤ p.2)
    ∧ [("b.h", 1), ("a.h", 1)].Sublist (sortDescBy Prod.snd (includeCounts [tieUnit])) :=
  c2_most_included_order [tieUnit] ("b.h", 1) ("a.h", 1) (by decide) rfl

/-- Claim C3, counterexample: two slow units in ascending compile-time
order produce suggestions with equal priority but ascending
`estimated_impact_ms` — the output is not sorted by impact descending. -/
theorem c3_counterexample :
    ((generate_suggestions_python
        (AnalysisResult.from_compilation_units [slowUnitA, slowUnitB]).file_metrics).map
      (fun s => s.estimated_impact_ms)) = [1800, 2100]
    ∧ ((generate_suggestions_python
        (AnalysisResult.from_compilation_units [slowUnitA, slowUnitB]).file_metrics).map
      (fun s => s.priority)) = [Priority.HIGH, Priority.HIGH]
    ∧ ((1800 : ℚ) < 2100) := by
  have hA : slowUnitA.total_time.ns = 6000000000 := rfl
  have hB : slowUnitB.total_time.ns = 7000000000 := rfl
  have hmsA : slowUnitA.total_time.milliseconds = 6000 := by
    rw [Duration.milliseconds, hA]; norm_num
  have hmsB : slowUnitB.total_time.milliseconds = 7000 := by
    rw [Duration.milliseconds, hB]; norm_num
  have hfm : (AnalysisResult.from_compilation_units [slowUnitA, slowUnitB]).file_metrics
      = [{ file_path := "a.cpp", compile_time_ms := 6000 },
         { file_path := "b.cpp", compile_time_ms := 7000 }] := by
    rw [file_metrics_eq]
    simp only [List.map_cons, List.map_nil, hmsA, hmsB]
    rfl
  have o1 : optSlow { file_path := "a.cpp", compile_time_ms := 6000 }
      = some (mkSlowTU { file_path := "a.cpp", compile_time_ms := 6000 }) := by
    rw [optSlow, if_pos]
    show (5000 : ℚ) < 6000
    norm_num
  have o2 : optSlow { file_path := "b.cpp", compile_time_ms := 7000 }
      = some (mkSlowTU { file_path := "b.cpp", compile_time_ms := 7000 }) := by
    rw [optSlow, if_pos]
    show (5000 : ℚ) < 7000
    norm_num
  rw [generate_eq_filterMap, hfm, List.filterMap_cons, List.filterMap_cons,
    List.filterMap_nil, o1, o2]
  refine ⟨?_, rfl, by norm_num⟩
  simp only [List.map_cons, List.map_nil]
  have i1 : (mkSlowTU { file_path := "a.cpp", compile_time_ms := 6000 }).estimated_impact_ms
      = (6000 : ℚ) * (3 / 10) := rfl
  have i2 : (mkSlowTU { file_path := "b.cpp", compile_time_ms := 7000 }).estimated_impact_ms
      = (7000 : ℚ) * (3 / 10) := rfl
  rw [i1, i2]
  norm_num

/-- Claim C3 (amended): the pure-Python suggester performs no sorting — its
output is exactly the slow-TU rule applied entry by entry in `file_metrics`
(input) order; every emitted suggestion carries priority High, but the list
is not reordered by `estimated_impact_ms` or title. -/
theorem c3_suggestions_in_input_order (ms : List FileMetrics) :
    generate_suggestions_python ms = ms.filterMap optSlow
    ∧ ∀ s, s ∈ generate_suggestions_python ms → s.priority = Priority.HIGH := by
  refine ⟨generate_eq_filterMap ms, ?_⟩
  intro s hs
  rw [generate_eq_filterMap] at hs
  obtain ⟨fm, _, hsome⟩ := List.mem_filterMap.mp hs
  by_cases h : 5000 < fm.compile_time_ms
  · rw [optSlow, if_pos h] at hsome
    obtain rfl := Option.some.inj hsome
    rfl
  · rw [optSlow, if_neg h] at hsome
    simp at hsome

/-- Claim C3, witness: on a concrete metrics list the suggester output is
the rule's `filterMap` and a concrete member has priority High. -/
theorem c3_suggestions_in_input_order_witness :
    generate_suggestions_python [fmSlow] = [fmSlow].filterMap optSlow
    ∧ (mkSlowTU fmSlow).priority = Priority.HIGH :=
  ⟨(c3_suggestions_in_input_order [fmSlow]).1,
    (c3_suggestions_in_input_order [fmSlow]).2 (mkSlowTU fmSlow) (by
      rw [generate_eq_filterMap]
      refine List.mem_filterMap.mpr ⟨fmSlow, List.mem_cons_self _ _, ?_⟩
      rw [optSlow, if_pos ?_]
      show (5000 : ℚ) < fmSlow.compile_time_ms
      norm_num [fmSlow])⟩

/-- Claim C9: in a result whose file paths are pairwise distinct, every
`FileMetrics` entry with `compile_time_ms > 5000` yields exactly one
suggestion for its file — of type PCH, priority High, impact
`0.3 × compile_time_ms` and confidence Medium — while an entry at or below
the threshold yields none. -/
theorem c9_slow_tu_rule (ms : List FileMetrics)
    (hnd : (ms.map (fun fm => fm.file_path)).Nodup)
    (fm : FileMetrics) (hfm : fm ∈ ms) :
    (5000 < fm.compile_time_ms →
      (generate_suggestions_python ms).countP (fun s => s.file_path == fm.file_path) = 1
      ∧ ∀ s ∈ generate_suggestions_python ms, s.file_path = fm.file_path →
          s.type = SuggestionType.PCH ∧ s.priority = Priority.HIGH
          ∧ s.estimated_impact_ms = fm.compile_time_ms * (3 / 10)
          ∧ s.confidence = Confidence.MEDIUM)
    ∧ (¬ 5000 < fm.compile_time_ms →
      (generate_suggestions_python ms).countP (fun s => s.file_path == fm.file_path) = 0) := by
  constructor
  · intro h
    constructor
    · rw [countP_generate]
      rw [countP_metrics_single (fun x => decide (5000 < x.compile_time_ms)) ms hnd fm hfm]
      simp [h]
    · intro s hs hpath
      rw [generate_eq_filterMap] at hs
      obtain ⟨fm', hfm', hsome⟩ := List.mem_filterMap.mp hs
      by_cases h' : 5000 < fm'.compile_time_ms
      · rw [optSlow, if_pos h'] at hsome
        obtain rfl := Option.some.inj hsome
        have hp : fm'.file_path = fm.file_path := hpath
        have hfe : fm' = fm := List.inj_on_of_nodup_map hnd hfm' hfm hp
        subst hfe
        exact ⟨rfl, rfl, rfl, rfl⟩
      · rw [optSlow, if_neg h'] at hsome
        simp at hsome
  · intro h
    rw [countP_generate]
    rw [countP_metrics_single (fun x => decide (5000 < x.compile_time_ms)) ms hnd fm hfm]
    simp [h]

/-- Claim C9, witness: with one slow and one fast file, exactly one
suggestion is emitted for the slow file and none for the fast one. -/
theorem c9_slow_tu_rule_witness :
    (generate_suggestions_python [fmSlow, fmFast]).countP
        (fun s => s.file_path == fmSlow.file_path) = 1
    ∧ (generate_suggestions_python [fmSlow, fmFast]).countP
        (fun s => s.file_path == fmFast.file_path) = 0 :=
  ⟨(((c9_slow_tu_rule [fmSlow, fmFast] (by decide) fmSlow
      (List.mem_cons_self _ _)).1) (by norm_num [fmSlow])).1,
    (c9_slow_tu_rule [fmSlow, fmFast] (by decide) fmFast
      (by simp [List.mem_cons])).2 (by norm_num [fmFast])⟩

end BHA
